import Mathlib

/-!
Verification of the job-queue and catalog subsystem of a music-library
orchestrator (backend/jobs/jobqueue.py, backend/jobs/tasks.py,
backend/services/{tracks,albums,subscriptions}.py).

The database rows are shallowly embedded as Lean structures, a table as a
`List` of rows, and each operation as a pure function from the table (plus
the current clock value, passed explicitly in place of `now_utc()`) to the
updated table.  Timestamps are integers, payload/result JSON blobs are
strings.  Python truthiness tests on optional strings and integers are
embedded explicitly (`none`/empty string/zero are falsy).
-/

namespace YTMD

/-- A row of the `jobs` table (backend/models.py, class Job).  `payload` and
`result` JSON blobs are kept as opaque strings. -/
structure Job where
  id : Nat
  jobType : String
  payload : Option String
  status : String
  attempts : Nat
  maxAttempts : Nat
  priority : Int
  scheduledAt : Option Int
  startedAt : Option Int
  finishedAt : Option Int
  lastError : Option String
  result : Option String
  createdAt : Int
  reservedBy : Option String
  deriving Repr, DecidableEq

/-- Eligibility filter of `reserve_job` (jobqueue.py lines 101-112):
`status = "queued" AND attempts < max_attempts AND
(scheduled_at IS NULL OR scheduled_at <= now)`. -/
def eligible (now : Int) (j : Job) : Prop :=
  j.status = "queued" ∧ j.attempts < j.maxAttempts ∧
    (j.scheduledAt = none ∨ ∃ s, j.scheduledAt = some s ∧ s ≤ now)

instance (now : Int) (j : Job) : Decidable (eligible now j) := by
  unfold eligible
  exact inferInstance

/-- The strict ordering `ORDER BY priority DESC, created_at ASC` of
`reserve_job`: `a` sorts strictly before `b`. -/
def betterJob (a b : Job) : Prop :=
  a.priority > b.priority ∨ (a.priority = b.priority ∧ a.createdAt < b.createdAt)

instance (a b : Job) : Decidable (betterJob a b) := by
  unfold betterJob
  exact inferInstance

/-- One step of scanning for the first row of the ordered result set. -/
def chooseBetter (acc : Option Job) (j : Job) : Option Job :=
  match acc with
  | none => some j
  | some b => if betterJob j b then some j else acc

/-- The row produced by the SQL `SELECT ... WHERE eligible ORDER BY
priority DESC, created_at ASC LIMIT 1`. -/
def pickBest (now : Int) (js : List Job) : Option Job :=
  (js.filter (fun j => decide (eligible now j))).foldl chooseBetter none

/-- The in-place update performed by `reserve_job` (jobqueue.py lines
120-123). -/
def reservedUpdate (now : Int) (workerName : String) (j : Job) : Job :=
  { j with attempts := j.attempts + 1, status := "reserved",
           reservedBy := some workerName, startedAt := some now }

/-- `reserve_job(session, worker_name)` (jobqueue.py lines 76-137): select
the most-eligible queued job, mark it reserved, return it together with the
updated table; `(none, unchanged)` when no eligible row exists. -/
def reserve_job (now : Int) (workerName : String) (js : List Job) :
    Option Job × List Job :=
  match pickBest now js with
  | none => (none, js)
  | some j =>
      (some (reservedUpdate now workerName j),
       js.map (fun k => if k.id = j.id then reservedUpdate now workerName j else k))

/-- Mutating the row fetched with `session.get(Job, job_id)`: in the table,
every row carrying that primary key is rewritten by `g`. -/
def updateById (jobId : Nat) (g : Job → Job) (js : List Job) : List Job :=
  js.map (fun k => if k.id = jobId then g k else k)

/-- `result or {}` of `mark_job_done` (a missing result dict is stored as
the empty JSON object). -/
def resultOrEmpty (res : Option String) : String :=
  match res with
  | some s => s
  | none => "{}"

/-- `mark_job_done(session, job_id, result)` (jobqueue.py lines 140-165):
a no-op when the id is absent, otherwise unconditionally sets
`status="done"`, `finished_at=now`, `result`, and clears `last_error`. -/
def mark_job_done (now : Int) (jobId : Nat) (res : Option String)
    (js : List Job) : List Job :=
  match js.find? (fun j => j.id == jobId) with
  | none => js
  | some _ =>
      updateById jobId (fun j =>
        { j with status := "done", finishedAt := some now,
                 result := some (resultOrEmpty res), lastError := none }) js

/-- `str(error_message) if error_message else None` (jobqueue.py line 197):
Python truthiness, so an empty message is stored as NULL. -/
def normErr (errorMessage : Option String) : Option String :=
  match errorMessage with
  | some s => if s = "" then none else some s
  | none => none

/-- The retry test of `mark_job_failed` (jobqueue.py line 200):
`retry_delay_seconds and (job.attempts or 0) < (job.max_attempts or 1)`.
Both truthiness coercions are explicit: a `0` delay is falsy, and a zero
`max_attempts` is replaced by 1. -/
def retryTest (retryDelaySeconds : Option Int) (j : Job) : Prop :=
  (∃ d, retryDelaySeconds = some d ∧ d ≠ 0) ∧
    j.attempts < (if j.maxAttempts = 0 then 1 else j.maxAttempts)

instance (rd : Option Int) (j : Job) : Decidable (retryTest rd j) := by
  unfold retryTest
  exact inferInstance

/-- `mark_job_failed(session, job_id, error_message, retry_delay_seconds)`
(jobqueue.py lines 168-222): no-op on a missing id; requeue with
`scheduled_at = now + delay` when the retry test passes; terminal
`status="failed"` otherwise. -/
def mark_job_failed (now : Int) (jobId : Nat) (errorMessage : Option String)
    (retryDelaySeconds : Option Int) (js : List Job) : List Job :=
  match js.find? (fun j => j.id == jobId) with
  | none => js
  | some job =>
      if retryTest retryDelaySeconds job then
        updateById jobId (fun j =>
          { j with lastError := normErr errorMessage, status := "queued",
                   scheduledAt := some (now + (retryDelaySeconds.getD 0)),
                   reservedBy := none }) js
      else
        updateById jobId (fun j =>
          { j with lastError := normErr errorMessage, status := "failed",
                   finishedAt := some now }) js

/-- `f"Cancelled: {reason}" if reason else "Cancelled by user"`
(jobqueue.py line 277). -/
def cancelMarker (reason : Option String) : String :=
  match reason with
  | some r => if r = "" then "Cancelled by user" else "Cancelled: " ++ r
  | none => "Cancelled by user"

/-- `cancel_job(session, job_id, reason)` (jobqueue.py lines 254-282):
returns `false` on a missing id or when `status in ["done", "failed"]`;
otherwise marks the row cancelled and returns `true`. -/
def cancel_job (now : Int) (jobId : Nat) (reason : Option String)
    (js : List Job) : Bool × List Job :=
  match js.find? (fun j => j.id == jobId) with
  | none => (false, js)
  | some job =>
      if job.status = "done" ∨ job.status = "failed" then (false, js)
      else
        (true,
         updateById jobId (fun j =>
           { j with status := "cancelled", finishedAt := some now,
                    lastError := some (cancelMarker reason) }) js)

/-- A queued demonstration job with everything else defaulted, used to
instantiate the queue theorems on concrete stores. -/
def qJob (i : Nat) (pr : Int) (cr : Int) : Job :=
  { id := i, jobType := "download_track", payload := none, status := "queued",
    attempts := 0, maxAttempts := 5, priority := pr, scheduledAt := none,
    startedAt := none, finishedAt := none, lastError := none, result := none,
    createdAt := cr, reservedBy := none }

/-- A reserved demonstration job mid-flight (one attempt used). -/
def rJob : Job :=
  { qJob 1 0 5 with status := "reserved", attempts := 1,
                    startedAt := some 50, reservedBy := some "w" }

/-- A demonstration job that an external `cancel_job` already cancelled. -/
def cJob : Job :=
  { qJob 1 0 5 with status := "cancelled", attempts := 1,
                    finishedAt := some 60,
                    lastError := some "Cancelled by user" }

lemma betterJob_irrefl (a : Job) : ¬ betterJob a a := by
  unfold betterJob; omega

lemma betterJob_shift {j b r : Job} (h1 : betterJob j b)
    (h2 : ¬ betterJob j r) : ¬ betterJob b r := by
  unfold betterJob at *; omega

lemma betterJob_chain {j b r : Job} (h1 : ¬ betterJob j b)
    (h2 : ¬ betterJob b r) : ¬ betterJob j r := by
  unfold betterJob at *; omega

lemma foldl_chooseBetter_some (l : List Job) (b : Job) :
    ∃ r, l.foldl chooseBetter (some b) = some r ∧ (r = b ∨ r ∈ l) ∧
      ¬ betterJob b r ∧ ∀ k ∈ l, ¬ betterJob k r := by
  induction l generalizing b with
  | nil =>
      exact ⟨b, rfl, Or.inl rfl, betterJob_irrefl b, by simp⟩
  | cons j t ih =>
      by_cases h : betterJob j b
      · obtain ⟨r, hr, hmem, hjr, hall⟩ := ih j
        refine ⟨r, ?_, ?_, betterJob_shift h hjr, ?_⟩
        · simpa [chooseBetter, h] using hr
        · rcases hmem with h1 | h1
          · exact Or.inr (by simp [h1])
          · exact Or.inr (List.mem_cons_of_mem _ h1)
        · intro k hk
          rcases List.mem_cons.mp hk with rfl | hk
          · exact hjr
          · exact hall k hk
      · obtain ⟨r, hr, hmem, hbr, hall⟩ := ih b
        refine ⟨r, ?_, ?_, hbr, ?_⟩
        · simpa [chooseBetter, h] using hr
        · rcases hmem with h1 | h1
          · exact Or.inl h1
          · exact Or.inr (List.mem_cons_of_mem _ h1)
        · intro k hk
          rcases List.mem_cons.mp hk with rfl | hk
          · exact betterJob_chain h hbr
          · exact hall k hk

lemma pickBest_none_iff (now : Int) (js : List Job) :
    pickBest now js = none ↔ ∀ j ∈ js, ¬ eligible now j := by
  unfold pickBest
  rcases hf : js.filter (fun j => decide (eligible now j)) with _ | ⟨a, t⟩
  · constructor
    · intro _ j hj he
      have hmem : j ∈ js.filter (fun j => decide (eligible now j)) :=
        List.mem_filter.mpr ⟨hj, by simpa using he⟩
      rw [hf] at hmem
      simp at hmem
    · intro _
      rfl
  · obtain ⟨r, hr, _, _, _⟩ := foldl_chooseBetter_some t a
    constructor
    · intro hcontra
      rw [List.foldl_cons, show chooseBetter none a = some a from rfl, hr]
        at hcontra
      cases hcontra
    · intro hall
      exfalso
      have ha : a ∈ js.filter (fun j => decide (eligible now j)) := by
        rw [hf]; exact List.mem_cons_self a t
      have hmem := List.mem_filter.mp ha
      exact hall a hmem.1 (by simpa using hmem.2)

lemma pickBest_some_spec (now : Int) (js : List Job) (j : Job)
    (h : pickBest now js = some j) :
    j ∈ js ∧ eligible now j ∧ ∀ k ∈ js, eligible now k → ¬ betterJob k j := by
  unfold pickBest at h
  rcases hf : js.filter (fun j => decide (eligible now j)) with _ | ⟨a, t⟩
  · rw [hf] at h; cases h
  · rw [hf, List.foldl_cons, show chooseBetter none a = some a from rfl] at h
    obtain ⟨r, hr, hmem, har, hall⟩ := foldl_chooseBetter_some t a
    rw [hr] at h
    have hje : j = r := (Option.some.inj h).symm
    rw [hje]
    have hrmem : r ∈ js.filter (fun k => decide (eligible now k)) := by
      rw [hf]
      rcases hmem with h1 | h1
      · simp [h1]
      · exact List.mem_cons_of_mem _ h1
    have hjm := List.mem_filter.mp hrmem
    refine ⟨hjm.1, by simpa using hjm.2, ?_⟩
    intro k hk he
    have hkf : k ∈ js.filter (fun k => decide (eligible now k)) :=
      List.mem_filter.mpr ⟨hk, by simpa using he⟩
    rw [hf] at hkf
    rcases List.mem_cons.mp hkf with rfl | hkt
    · exact har
    · exact hall k hkt

lemma find?_updateById (jobId : Nat) (g : Job → Job) (js : List Job)
    (j : Job) (hg : ∀ k, (g k).id = k.id)
    (h : js.find? (fun k => k.id == jobId) = some j) :
    (updateById jobId g js).find? (fun k => k.id == jobId) = some (g j) := by
  induction js with
  | nil => cases h
  | cons a t ih =>
      by_cases ha : a.id = jobId
      · rw [List.find?_cons_of_pos _ (by simpa using ha)] at h
        obtain rfl := Option.some.inj h
        rw [show updateById jobId g (a :: t) = g a :: updateById jobId g t by
          simp [updateById, ha]]
        exact List.find?_cons_of_pos _ (by simpa [hg] using ha)
      · rw [List.find?_cons_of_neg _ (by simpa using ha)] at h
        rw [show updateById jobId g (a :: t) = a :: updateById jobId g t by
          simp [updateById, ha]]
        rw [List.find?_cons_of_neg _ (by simpa using ha)]
        exact ih h

lemma mem_updateById_of_ne {k : Job} {js : List Job} (hk : k ∈ js)
    (jobId : Nat) (g : Job → Job) (hne : k.id ≠ jobId) :
    k ∈ updateById jobId g js := by
  unfold updateById
  exact List.mem_map.mpr ⟨k, hk, by simp [hne]⟩

/-- C1: `reserve_job` returns a job only if it is eligible
(`status="queued"`, `attempts < max_attempts`, `scheduled_at` null or
`≤ now`); the returned job is maximal in the `(priority DESC, created_at
ASC)` order among eligible jobs; in the same step its status becomes
"reserved", attempts is incremented, `reserved_by` and `started_at` are
set; and `none` is returned (and the store untouched) when no eligible job
exists. -/
theorem reserve_job_meets_spec (now : Int) (w : String) (js : List Job) :
    ((reserve_job now w js).1 = none ↔ ∀ j ∈ js, ¬ eligible now j) ∧
    ((reserve_job now w js).1 = none → (reserve_job now w js).2 = js) ∧
    (∀ r, (reserve_job now w js).1 = some r →
      ∃ j, j ∈ js ∧ eligible now j ∧
        (∀ k ∈ js, eligible now k → ¬ betterJob k j) ∧
        r = reservedUpdate now w j ∧ r.status = "reserved" ∧
        r.attempts = j.attempts + 1 ∧ r.reservedBy = some w ∧
        r.startedAt = some now ∧
        (reserve_job now w js).2 =
          js.map (fun k => if k.id = j.id then reservedUpdate now w j else k)) := by
  rcases hp : pickBest now js with _ | j
  · refine ⟨⟨fun _ => (pickBest_none_iff now js).mp hp, fun _ => ?_⟩,
      fun _ => ?_, fun r hr => ?_⟩
    · simp [reserve_job, hp]
    · simp [reserve_job, hp]
    · exact absurd hr (by simp [reserve_job, hp])
  · obtain ⟨hmem, hel, hmax⟩ := pickBest_some_spec now js j hp
    refine ⟨⟨fun hn => ?_, fun hall => absurd hel (hall j hmem)⟩,
      fun hn => ?_, fun r hr => ?_⟩
    · exact absurd hn (by simp [reserve_job, hp])
    · exact absurd hn (by simp [reserve_job, hp])
    · have hr' : reservedUpdate now w j = r := by
        simpa [reserve_job, hp] using hr
      rw [← hr']
      refine ⟨j, hmem, hel, hmax, rfl, rfl, rfl, rfl, rfl, ?_⟩
      simp [reserve_job, hp]

/-- Witness for C1 on a concrete two-job store: the higher-priority job
(id 2) is reserved. -/
theorem reserve_job_meets_spec_witness :
    ∃ j, j ∈ [qJob 1 0 5, qJob 2 1 9] ∧ eligible 10 j ∧
      (∀ k ∈ [qJob 1 0 5, qJob 2 1 9], eligible 10 k → ¬ betterJob k j) ∧
      reservedUpdate 10 "w" (qJob 2 1 9) = reservedUpdate 10 "w" j ∧
      (reservedUpdate 10 "w" (qJob 2 1 9)).status = "reserved" ∧
      (reservedUpdate 10 "w" (qJob 2 1 9)).attempts = j.attempts + 1 ∧
      (reservedUpdate 10 "w" (qJob 2 1 9)).reservedBy = some "w" ∧
      (reservedUpdate 10 "w" (qJob 2 1 9)).startedAt = some 10 ∧
      (reserve_job 10 "w" [qJob 1 0 5, qJob 2 1 9]).2 =
        [qJob 1 0 5, qJob 2 1 9].map
          (fun k => if k.id = j.id then reservedUpdate 10 "w" j else k) :=
  (reserve_job_meets_spec 10 "w" [qJob 1 0 5, qJob 2 1 9]).2.2
    (reservedUpdate 10 "w" (qJob 2 1 9)) (by decide)

/-- C2 counterexample: a retrying handler that reports
`retry_delay_seconds = 0` for a job with `attempts (1) < max_attempts (5)`
does NOT requeue the job — Python truthiness treats the `0` delay as
absent, so `mark_job_failed` takes the terminal branch. -/
theorem mark_job_failed_zero_delay_counterexample :
    ((mark_job_failed 100 1 (some "boom") (some 0) [rJob]).find?
        (fun k => k.id == 1)).map Job.status = some "failed" ∧
      (some "failed" : Option String) ≠ some "queued" ∧
      rJob.attempts < rJob.maxAttempts := by decide

/-- C2 amended: `mark_job_failed` requeues exactly when
`retry_delay_seconds` is given AND NONZERO and `attempts <
max(max_attempts, 1)`; in particular a `0` delay is treated as not given
and leads to the terminal `failed` branch. -/
theorem mark_job_failed_spec (now : Int) (jobId : Nat) (err : Option String)
    (rd : Option Int) (js : List Job) (j : Job)
    (h : js.find? (fun k => k.id == jobId) = some j) :
    (retryTest rd j →
      ∃ j', (mark_job_failed now jobId err rd js).find?
            (fun k => k.id == jobId) = some j' ∧
        j' = { j with lastError := normErr err, status := "queued",
                      scheduledAt := some (now + rd.getD 0),
                      reservedBy := none } ∧
        j'.startedAt = j.startedAt ∧ j'.finishedAt = j.finishedAt) ∧
    (¬ retryTest rd j →
      ∃ j', (mark_job_failed now jobId err rd js).find?
            (fun k => k.id == jobId) = some j' ∧
        j' = { j with lastError := normErr err, status := "failed",
                      finishedAt := some now }) ∧
    (∀ k ∈ js, k.id ≠ jobId → k ∈ mark_job_failed now jobId err rd js) := by
  simp only [mark_job_failed, h]
  by_cases hrt : retryTest rd j
  · rw [if_pos hrt]
    refine ⟨fun _ => ?_, fun hn => absurd hrt hn, fun k hk hne => ?_⟩
    · refine ⟨_, ?_, rfl, rfl, rfl⟩
      refine find?_updateById _ _ _ _ ?_ h
      exact fun k => rfl
    · exact mem_updateById_of_ne hk _ _ hne
  · rw [if_neg hrt]
    refine ⟨fun hc => absurd hc hrt, fun _ => ?_, fun k hk hne => ?_⟩
    · refine ⟨_, ?_, rfl⟩
      refine find?_updateById _ _ _ _ ?_ h
      exact fun k => rfl
    · exact mem_updateById_of_ne hk _ _ hne

/-- Witness for the C2 amendment: a nonzero delay (60 s) requeues the
reserved demonstration job with `scheduled_at = 100 + 60`. -/
theorem mark_job_failed_spec_witness :
    (retryTest (some 60) rJob →
      ∃ j', (mark_job_failed 100 1 (some "boom") (some 60) [rJob]).find?
            (fun k => k.id == 1) = some j' ∧
        j' = { rJob with lastError := normErr (some "boom"),
                         status := "queued",
                         scheduledAt := some (100 + (some (60:Int)).getD 0),
                         reservedBy := none } ∧
        j'.startedAt = rJob.startedAt ∧ j'.finishedAt = rJob.finishedAt) ∧
    (¬ retryTest (some 60) rJob →
      ∃ j', (mark_job_failed 100 1 (some "boom") (some 60) [rJob]).find?
            (fun k => k.id == 1) = some j' ∧
        j' = { rJob with lastError := normErr (some "boom"),
                         status := "failed", finishedAt := some 100 }) ∧
    (∀ k ∈ [rJob], k.id ≠ 1 →
      k ∈ mark_job_failed 100 1 (some "boom") (some 60) [rJob]) :=
  mark_job_failed_spec 100 1 (some "boom") (some 60) [rJob] rJob (by decide)

/-- C3 counterexample: `mark_job_done` does NOT require the current status
to be "reserved" — called on an already-cancelled job it overwrites the row
to "done" instead of being a no-op. -/
theorem mark_job_done_on_cancelled_counterexample :
    ((mark_job_done 70 1 none [cJob]).find? (fun k => k.id == 1)).map
        Job.status = some "done" ∧
      cJob.status = "cancelled" ∧
      mark_job_done 70 1 none [cJob] ≠ [cJob] := by decide

/-- C3 amended: for EVERY existing job, regardless of its current status
(including "cancelled"), `mark_job_done` sets `status="done"`,
`finished_at=now`, stores the result and clears `last_error`; only a
missing job id is a no-op. -/
theorem mark_job_done_spec (now : Int) (jobId : Nat) (res : Option String)
    (js : List Job) (j : Job)
    (h : js.find? (fun k => k.id == jobId) = some j) :
    (∃ j', (mark_job_done now jobId res js).find?
          (fun k => k.id == jobId) = some j' ∧
      j' = { j with status := "done", finishedAt := some now,
                    result := some (resultOrEmpty res), lastError := none }) ∧
    (∀ k ∈ js, k.id ≠ jobId → k ∈ mark_job_done now jobId res js) := by
  simp only [mark_job_done, h]
  refine ⟨⟨_, ?_, rfl⟩, fun k hk hne => mem_updateById_of_ne hk _ _ hne⟩
  refine find?_updateById _ _ _ _ ?_ h
  exact fun k => rfl

/-- Witness for the C3 amendment at the cancelled demonstration job. -/
theorem mark_job_done_spec_witness :
    (∃ j', (mark_job_done 70 1 none [cJob]).find?
          (fun k => k.id == 1) = some j' ∧
      j' = { cJob with status := "done", finishedAt := some 70,
                       result := some (resultOrEmpty none),
                       lastError := none }) ∧
    (∀ k ∈ [cJob], k.id ≠ 1 → k ∈ mark_job_done 70 1 none [cJob]) :=
  mark_job_done_spec 70 1 none [cJob] cJob (by decide)

/-- C4 counterexample: "cancelled" is NOT part of the terminal set checked
by `cancel_job` (the code tests only `["done", "failed"]`), so cancelling
an already-cancelled job succeeds: it returns `true` and rewrites the row
(`finished_at`, `last_error`). -/
theorem cancel_job_cancelled_counterexample :
    (cancel_job 90 1 (some "again") [cJob]).1 = true ∧
      cJob.status = "cancelled" ∧
      (cancel_job 90 1 (some "again") [cJob]).2 ≠ [cJob] := by decide

/-- C4 amended: for an existing job, `cancel_job` returns `false` and
leaves the store unchanged exactly when the status is "done" or "failed"
(NOT "cancelled"); otherwise — including on an already-cancelled job — it
sets `status="cancelled"`, `finished_at=now`, the cancellation marker, and
returns `true`. -/
theorem cancel_job_spec (now : Int) (jobId : Nat) (reason : Option String)
    (js : List Job) (j : Job)
    (h : js.find? (fun k => k.id == jobId) = some j) :
    ((cancel_job now jobId reason js).1 = false ↔
        (j.status = "done" ∨ j.status = "failed")) ∧
    ((j.status = "done" ∨ j.status = "failed") →
      (cancel_job now jobId reason js).2 = js) ∧
    (¬ (j.status = "done" ∨ j.status = "failed") →
      ∃ j', (cancel_job now jobId reason js).2.find?
            (fun k => k.id == jobId) = some j' ∧
        j' = { j with status := "cancelled", finishedAt := some now,
                      lastError := some (cancelMarker reason) } ∧
        ∀ k ∈ js, k.id ≠ jobId → k ∈ (cancel_job now jobId reason js).2) := by
  by_cases ht : j.status = "done" ∨ j.status = "failed"
  · have he : cancel_job now jobId reason js = (false, js) := by
      simp only [cancel_job, h]
      rw [if_pos ht]
    rw [he]
    exact ⟨⟨fun _ => ht, fun _ => rfl⟩, fun _ => rfl, fun hn => absurd ht hn⟩
  · have he : cancel_job now jobId reason js =
        (true,
         updateById jobId (fun k =>
           { k with status := "cancelled", finishedAt := some now,
                    lastError := some (cancelMarker reason) }) js) := by
      simp only [cancel_job, h]
      rw [if_neg ht]
    rw [he]
    refine ⟨?_, fun hc => absurd hc ht, fun _ => ⟨_, ?_, rfl, ?_⟩⟩
    · simp [ht]
    · refine find?_updateById _ _ _ _ ?_ h
      exact fun k => rfl
    · exact fun k hk hne => mem_updateById_of_ne hk _ _ hne

/-- Witness for the C4 amendment at the cancelled demonstration job:
cancel succeeds again. -/
theorem cancel_job_spec_witness :
    ((cancel_job 90 1 (some "again") [cJob]).1 = false ↔
        (cJob.status = "done" ∨ cJob.status = "failed")) ∧
    ((cJob.status = "done" ∨ cJob.status = "failed") →
      (cancel_job 90 1 (some "again") [cJob]).2 = [cJob]) ∧
    (¬ (cJob.status = "done" ∨ cJob.status = "failed") →
      ∃ j', (cancel_job 90 1 (some "again") [cJob]).2.find?
            (fun k => k.id == 1) = some j' ∧
        j' = { cJob with status := "cancelled", finishedAt := some 90,
                         lastError := some (cancelMarker (some "again")) } ∧
        ∀ k ∈ [cJob], k.id ≠ 1 →
          k ∈ (cancel_job 90 1 (some "again") [cJob]).2) :=
  cancel_job_spec 90 1 (some "again") [cJob] cJob (by decide)

/-- C10: calling `mark_job_done` or `mark_job_failed` with a job id that is
not in the store leaves every row untouched (and, being total functions,
they raise nothing). -/
theorem mark_done_failed_missing_job_noop (now : Int) (jobId : Nat)
    (res err : Option String) (rd : Option Int) (js : List Job)
    (h : js.find? (fun j => j.id == jobId) = none) :
    mark_job_done now jobId res js = js ∧
      mark_job_failed now jobId err rd js = js := by
  refine ⟨?_, ?_⟩ <;> simp [mark_job_done, mark_job_failed, h]

/-- Witness for C10: id 7 is absent from the singleton store. -/
theorem mark_done_failed_missing_job_noop_witness :
    mark_job_done 3 7 none [qJob 1 0 5] = [qJob 1 0 5] ∧
      mark_job_failed 3 7 none none [qJob 1 0 5] = [qJob 1 0 5] :=
  mark_done_failed_missing_job_noop 3 7 none none none [qJob 1 0 5] (by decide)

/-! ## Album-subscription download-status aggregation
(backend/services/subscriptions.py, `check_and_update_album_download_status`) -/

/-- `track.status or "new"` (subscriptions.py line 260): the status column
is non-null, so Python truthiness only maps the empty string to "new". -/
def normTrackStatus (s : String) : String := if s = "" then "new" else s

/-- An AlbumSubscription row (backend/models.py), reduced to the fields the
modelled operations read or write; a null `artist_id` is the empty
string. -/
structure AlbumSub where
  albumId : String
  artistId : String
  mode : String
  downloadStatus : String
  lastSyncedAt : Option Int
  createdAt : Int
  deriving Repr, DecidableEq

/-- The status decision tree of
`check_and_update_album_download_status` for a non-empty track list
(subscriptions.py lines 257-281): counts of the normalized statuses drive
a five-way if/elif chain, including the extra
`done_count > 0 and (new_count + failed_count) == 0` completed branch. -/
def aggregateTrackStatuses (statuses : List String) : String :=
  if (statuses.map normTrackStatus).count "done" = statuses.length then
    "completed"
  else if 0 < (statuses.map normTrackStatus).count "done" ∧
      (statuses.map normTrackStatus).count "new"
        + (statuses.map normTrackStatus).count "failed" = 0 then
    "completed"
  else if 0 < (statuses.map normTrackStatus).count "downloading" then
    "downloading"
  else if (statuses.map normTrackStatus).count "failed" = statuses.length then
    "failed"
  else if 0 < (statuses.map normTrackStatus).count "failed" ∨
      0 < (statuses.map normTrackStatus).count "new" then
    "pending"
  else "completed"

/-- `check_and_update_album_download_status(session, album_id)`
(subscriptions.py lines 227-293), with the subscription lookup and the
album's track statuses passed explicitly: "idle" with no write when no
subscription exists; "pending" persisted when the album has no tracks;
otherwise the aggregated status is persisted together with
`last_synced_at = now`. -/
def check_and_update_album_download_status (sub : Option AlbumSub)
    (now : Int) (trackStatuses : List String) : String × Option AlbumSub :=
  match sub with
  | none => ("idle", none)
  | some s =>
      if trackStatuses = [] then
        ("pending", some { s with downloadStatus := "pending" })
      else
        (aggregateTrackStatuses trackStatuses,
         some { s with downloadStatus := aggregateTrackStatuses trackStatuses,
                       lastSyncedAt := some now })

/-- Modelled from the spec: the §4.3.5 aggregation function (no tracks →
pending; all done → completed; any downloading → downloading; all failed →
failed; otherwise pending), against which the claim compares the code. -/
def specAggregate (statuses : List String) : String :=
  if statuses = [] then "pending"
  else if ∀ s ∈ statuses, s = "done" then "completed"
  else if "downloading" ∈ statuses then "downloading"
  else if ∀ s ∈ statuses, s = "failed" then "failed"
  else "pending"

/-- The §4.3.5 function as amended by the code's extra rule: after the
all-done check, an album with at least one done track and no new/failed
track is also "completed" (statuses are normalized first, "" counting as
"new"). -/
def specAggregateAmended (statuses : List String) : String :=
  if statuses = [] then "pending"
  else if ∀ s ∈ statuses.map normTrackStatus, s = "done" then "completed"
  else if "done" ∈ statuses.map normTrackStatus ∧
      ¬ ("new" ∈ statuses.map normTrackStatus ∨
         "failed" ∈ statuses.map normTrackStatus) then "completed"
  else if "downloading" ∈ statuses.map normTrackStatus then "downloading"
  else if ∀ s ∈ statuses.map normTrackStatus, s = "failed" then "failed"
  else if "failed" ∈ statuses.map normTrackStatus ∨
      "new" ∈ statuses.map normTrackStatus then "pending"
  else "completed"

/-- A demonstration AlbumSubscription row. -/
def demoSub : AlbumSub :=
  { albumId := "AL1", artistId := "AR1", mode := "download",
    downloadStatus := "pending", lastSyncedAt := none, createdAt := 0 }

lemma aggregate_eq_amended (statuses : List String) (hne : statuses ≠ []) :
    aggregateTrackStatuses statuses = specAggregateAmended statuses := by
  unfold aggregateTrackStatuses specAggregateAmended
  rw [if_neg hne]
  refine if_congr ?_ rfl (if_congr ?_ rfl (if_congr ?_ rfl (if_congr ?_ rfl
    (if_congr ?_ rfl rfl))))
  · rw [← List.length_map statuses normTrackStatus, List.count_eq_length]
    exact ⟨fun h s hs => (h s hs).symm, fun h s hs => (h s hs).symm⟩
  · simp [List.count_pos_iff, List.count_eq_zero, not_or, Nat.add_eq_zero]
  · exact List.count_pos_iff
  · rw [← List.length_map statuses normTrackStatus, List.count_eq_length]
    exact ⟨fun h s hs => (h s hs).symm, fun h s hs => (h s hs).symm⟩
  · simp [List.count_pos_iff]

/-- C5 counterexample: for an album whose two tracks have statuses
{done, downloading}, the code computes and persists "completed" (its extra
`done_count > 0 and new+failed == 0` branch), while the spec's aggregation
function yields "downloading". -/
theorem album_status_aggregation_counterexample :
    (check_and_update_album_download_status (some demoSub) 5
        ["done", "downloading"]).1 = "completed" ∧
      specAggregate ["done", "downloading"] = "downloading" ∧
      ("completed" : String) ≠ "downloading" := by decide

/-- C5 amended: for every album with a subscription, the persisted
`download_status` equals the spec function extended with the code's extra
completed rule (at least one done track and no new/failed track →
"completed", checked before the downloading/failed/pending cases). -/
theorem check_album_status_meets_amended_spec (sub : AlbumSub) (now : Int)
    (statuses : List String) :
    (check_and_update_album_download_status (some sub) now statuses).1 =
      specAggregateAmended statuses ∧
    ∃ s', (check_and_update_album_download_status (some sub) now statuses).2
        = some s' ∧ s'.downloadStatus = specAggregateAmended statuses := by
  unfold check_and_update_album_download_status
  dsimp only
  by_cases he : statuses = []
  · subst he
    exact ⟨rfl, ⟨_, rfl, rfl⟩⟩
  · rw [if_neg he]
    exact ⟨aggregate_eq_amended statuses he,
      ⟨_, rfl, aggregate_eq_amended statuses he⟩⟩

/-! ## Track-key choice of `import_album`
(backend/services/albums.py, `fetch_and_upsert_album` lines 354-415) -/

/-- Strip ASCII/unicode whitespace from both ends (Python `str.strip()`),
on the character list of a title. -/
def stripEnds (l : List Char) : List Char :=
  ((l.dropWhile (fun c => c.isWhitespace)).reverse.dropWhile
    (fun c => c.isWhitespace)).reverse

/-- `title.lower().strip()` (albums.py lines 362 and 402-403). -/
def lowerStrip (s : String) : List Char :=
  stripEnds (s.data.map Char.toLower)

/-- `t.split("(")[0].strip()`: the part before the first opening
parenthesis, stripped (albums.py line 409). -/
def parenPrefixStrip (l : List Char) : List Char :=
  stripEnds (l.takeWhile (fun c => c ≠ '('))

/-- The title-match test of the audio-id substitution (albums.py lines
405-410): equality of the lowered titles, containment in either direction,
or equality of the before-parenthesis prefixes of each title. -/
def titleMatch (albumTitleLower plTitleLower : List Char) : Bool :=
  albumTitleLower == plTitleLower ||
  decide (List.IsInfix albumTitleLower plTitleLower) ||
  decide (List.IsInfix plTitleLower albumTitleLower) ||
  parenPrefixStrip albumTitleLower == parenPrefixStrip plTitleLower

/-- One entry of the `audio_id_map` built from the album's playlist
(albums.py lines 354-364): the playlist audio id and the already
lowered-and-stripped playlist title. -/
structure AudioInfo where
  audioId : String
  titleLower : List Char
  deriving Repr, DecidableEq

/-- The track-key choice (albums.py lines 394-415): start from the album
endpoint's video id; if the position is in the playlist map, the audio id
differs, and the titles match, substitute the playlist audio id. -/
def chooseTrackId (videoId : String) (entry : Option AudioInfo)
    (albumTitle : String) : String :=
  match entry with
  | none => videoId
  | some info =>
      if info.audioId ≠ videoId ∧
          titleMatch (lowerStrip albumTitle) info.titleLower = true then
        info.audioId
      else videoId

/-- C6 counterexample: for album track {id v1, title "Song (Live)"} paired
with playlist entry {id a1, title "Song Live"}, the titles do NOT match
under the code's rule — the parenthesis-stripped prefixes are "song" and
"song live" — so the stored Track id is v1, not the claimed a1. -/
theorem playlist_audio_id_substitution_counterexample :
    titleMatch (lowerStrip "Song (Live)") (lowerStrip "Song Live") = false ∧
    parenPrefixStrip (lowerStrip "Song (Live)") = "song".data ∧
    parenPrefixStrip (lowerStrip "Song Live") = "song live".data ∧
    chooseTrackId "v1" (some ⟨"a1", lowerStrip "Song Live"⟩) "Song (Live)"
      = "v1" ∧
    ("v1" : String) ≠ "a1" := by decide

/-- C6 amended: when the playlist map holds the position and its audio id
differs from the video id, the audio id is stored exactly when the titles
match per the code's rule (case-insensitive equality, containment either
way, or equality after stripping each title at its first open
parenthesis); for the "Song (Live)" / "Song Live" example the rule fails,
so the video id is kept. -/
theorem choose_track_id_spec (videoId audioId : String)
    (albumTitle : String) (plTitle : List Char) (h : audioId ≠ videoId) :
    (chooseTrackId videoId (some ⟨audioId, plTitle⟩) albumTitle = audioId ↔
        titleMatch (lowerStrip albumTitle) plTitle = true) ∧
    (titleMatch (lowerStrip albumTitle) plTitle = false →
        chooseTrackId videoId (some ⟨audioId, plTitle⟩) albumTitle
          = videoId) ∧
    chooseTrackId videoId none albumTitle = videoId := by
  unfold chooseTrackId
  dsimp only
  by_cases ht : titleMatch (lowerStrip albumTitle) plTitle = true
  · rw [if_pos ⟨h, ht⟩]
    exact ⟨⟨fun _ => ht, fun _ => rfl⟩,
      fun hf => absurd ht (by simp [hf]), rfl⟩
  · have hneg : ¬ (audioId ≠ videoId ∧
        titleMatch (lowerStrip albumTitle) plTitle = true) :=
      fun hc => ht hc.2
    rw [if_neg hneg]
    exact ⟨⟨fun he => absurd he.symm h, fun hb => absurd hb ht⟩,
      fun _ => rfl, rfl⟩

/-- Witness for the C6 amendment: the identical title "Intro" matches, so
the playlist audio id a2 replaces v2. -/
theorem choose_track_id_spec_witness :
    (chooseTrackId "v2" (some ⟨"a2", lowerStrip "Intro"⟩) "Intro" = "a2" ↔
        titleMatch (lowerStrip "Intro") (lowerStrip "Intro") = true) ∧
    (titleMatch (lowerStrip "Intro") (lowerStrip "Intro") = false →
        chooseTrackId "v2" (some ⟨"a2", lowerStrip "Intro"⟩) "Intro"
          = "v2") ∧
    chooseTrackId "v2" none "Intro" = "v2" :=
  choose_track_id_spec "v2" "a2" "Intro" (lowerStrip "Intro") (by decide)

/-! ## Track upsert and the per-track pass of `import_album`
(backend/services/tracks.py `upsert_track`,
backend/services/albums.py `fetch_and_upsert_album` lines 366-449,
backend/jobs/tasks.py `download_lyrics` lines 511-522) -/

/-- An embedded artist reference `{id, name}` on a Track row. -/
abbrev ArtistRef := Option String × Option String

/-- A row of the `tracks` table (backend/models.py, class Track). -/
structure Track where
  id : String
  title : String
  duration : Option Int
  artists : Option (List ArtistRef)
  albumId : Option String
  trackNumber : Option Int
  hasLyrics : Bool
  lyricsLocal : Option String
  filePath : Option String
  status : String
  artistValid : Bool
  deriving Repr, DecidableEq

abbrev TrackDB := List Track

/-- `session.get(Track, track_id)`. -/
def findTrack (db : TrackDB) (trackId : String) : Option Track :=
  db.find? (fun t => t.id == trackId)

/-- Python truthiness of an optional string column (`None` and the empty
string are falsy). -/
def strTruthy : Option String → Bool
  | none => false
  | some s => s != ""

/-- The Track row created by `upsert_track` (tracks.py lines 43-58); the
creation applies Python truthiness to `lyrics_local`. -/
def newTrack (trackId title : String) (tn dur : Option Int)
    (al : Option (List ArtistRef)) (ai : Option String) (st : String)
    (fp : Option String) (av hl : Bool) (ll : Option String) : Track :=
  { id := trackId, title := title, duration := dur, artists := al,
    albumId := ai, trackNumber := tn, hasLyrics := hl,
    lyricsLocal := if strTruthy ll then ll else none,
    filePath := fp, status := st, artistValid := av }

/-- The field-by-field overwrite `upsert_track` applies to an existing row
(tracks.py lines 59-93): every nullable argument overwrites only when
non-null; `title`, `status`, `artist_valid` and `has_lyrics` are written
unconditionally. -/
def updTrack (title : String) (tn dur : Option Int)
    (al : Option (List ArtistRef)) (ai : Option String) (st : String)
    (fp : Option String) (av hl : Bool) (ll : Option String)
    (t : Track) : Track :=
  { t with
    title := title,
    duration := match dur with | some d => some d | none => t.duration,
    artists := match al with | some a => some a | none => t.artists,
    albumId := match ai with | some a => some a | none => t.albumId,
    trackNumber := match tn with | some n => some n | none => t.trackNumber,
    filePath := match fp with | some p => some p | none => t.filePath,
    status := st,
    artistValid := av,
    hasLyrics := hl,
    lyricsLocal := match ll with | some l => some l | none => t.lyricsLocal }

/-- `upsert_track` (tracks.py lines 20-95). -/
def upsert_track (db : TrackDB) (trackId title : String)
    (tn dur : Option Int) (al : Option (List ArtistRef))
    (ai : Option String) (st : String) (fp : Option String)
    (av hl : Bool) (ll : Option String) : TrackDB :=
  match findTrack db trackId with
  | none => db ++ [newTrack trackId title tn dur al ai st fp av hl ll]
  | some _ =>
      db.map (fun t =>
        if t.id = trackId then updTrack title tn dur al ai st fp av hl ll t
        else t)

/-- One entry of the album endpoint's track list, as read by the import
loop (albums.py lines 373-393): a missing id is the empty string (the loop
skips it), the title/track_number `or`-defaults are applied in the step. -/
structure AlbumTrackData where
  videoId : String
  title : String
  duration : Option Int
  artists : List ArtistRef
  trackNumber : Option Int
  deriving Repr, DecidableEq

/-- `track_data.get("title") or "Unknown Track"` (albums.py line 379). -/
def effTitle (td : AlbumTrackData) : String :=
  if td.title = "" then "Unknown Track" else td.title

/-- `track_data.get("track_number") or idx + 1` (albums.py line 393):
a zero track number is falsy and falls back to the position. -/
def effTrackNumber (idx : Nat) (td : AlbumTrackData) : Int :=
  match td.trackNumber with
  | some n => if n = 0 then (idx : Int) + 1 else n
  | none => (idx : Int) + 1

/-- The final track key of the entry at a position: album video id, or the
playlist audio id on a title match (albums.py lines 394-415).  It depends
only on the upstream data, never on the database. -/
def stepFinalId (amap : Nat → Option AudioInfo)
    (entry : Nat × AlbumTrackData) : String :=
  chooseTrackId entry.2.videoId (amap entry.1) (effTitle entry.2)

/-- The status/file pair the import loop passes to `upsert_track`
(albums.py lines 417-426): keep both when the pre-existing row has a
truthy file (an empty status falling back to "done"), else ("new", null).
-/
def preserveStatusFile (pre : Option Track) : String × Option String :=
  match pre with
  | some p =>
      if strTruthy p.filePath then
        (if p.status = "" then "done" else p.status, p.filePath)
      else ("new", none)
  | none => ("new", none)

/-- The body of the per-track loop of `fetch_and_upsert_album` (albums.py
lines 373-445) for the entry at position `idx`: skip an empty id, choose
the track key via the playlist map, preserve status/file of a row that
already has a file, and upsert. -/
def importStep (albumId : String) (amap : Nat → Option AudioInfo)
    (db : TrackDB) (entry : Nat × AlbumTrackData) : TrackDB :=
  if entry.2.videoId = "" then db
  else
    upsert_track db (stepFinalId amap entry) (effTitle entry.2)
      (some (effTrackNumber entry.1 entry.2)) entry.2.duration
      (some entry.2.artists) (some albumId)
      (preserveStatusFile (findTrack db (stepFinalId amap entry))).1
      (preserveStatusFile (findTrack db (stepFinalId amap entry))).2
      true false none

/-- The track loop over an already-enumerated entry list. -/
def importTracksFrom (albumId : String) (amap : Nat → Option AudioInfo)
    (entries : List (Nat × AlbumTrackData)) (db : TrackDB) : TrackDB :=
  entries.foldl (importStep albumId amap) db

/-- The full track pass of one `import_album` run over the album
endpoint's track list (the positional index feeding both the playlist map
and the track-number default). -/
def import_album_tracks (albumId : String) (amap : Nat → Option AudioInfo)
    (tracks : List AlbumTrackData) (db : TrackDB) : TrackDB :=
  importTracksFrom albumId amap tracks.enum db

/-- Transaction 2 of `download_lyrics` (tasks.py lines 511-522): set
`has_lyrics = true` and `lyrics_local` to the saved .lrc path. -/
def download_lyrics_update (db : TrackDB) (trackId lrcPath : String) :
    TrackDB :=
  db.map (fun t =>
    if t.id = trackId then
      { t with hasLyrics := true, lyricsLocal := some lrcPath }
    else t)

/-- Invariant I4 of the spec over a track table: `lyrics_local` is
non-null iff `has_lyrics = true`. -/
def lyricsInvariant (db : TrackDB) : Prop :=
  ∀ t ∈ db, (t.lyricsLocal ≠ none ↔ t.hasLyrics = true)

instance (db : TrackDB) : Decidable (lyricsInvariant db) := by
  unfold lyricsInvariant
  exact inferInstance

/-- The direction of I4 that survives: a track with `has_lyrics = true`
has a non-null `lyrics_local`. -/
def lyricsWeakInvariant (db : TrackDB) : Prop :=
  ∀ t ∈ db, t.hasLyrics = true → t.lyricsLocal ≠ none

instance (db : TrackDB) : Decidable (lyricsWeakInvariant db) := by
  unfold lyricsWeakInvariant
  exact inferInstance

/-- The playlist map of an album without a playlist. -/
def amapNone : Nat → Option AudioInfo := fun _ => none

/-- A demonstration upstream album-track entry. -/
def demoAlbumTrack : AlbumTrackData :=
  { videoId := "v2", title := "Intro", duration := some 100,
    artists := [(some "AR1", some "Artist")], trackNumber := some 1 }

/-- A demonstration downloaded track row matching `demoAlbumTrack`. -/
def demoDoneTrack : Track :=
  { id := "v2", title := "Intro", duration := some 100,
    artists := some [(some "AR1", some "Artist")], albumId := some "AL1",
    trackNumber := some 1, hasLyrics := false, lyricsLocal := none,
    filePath := some "/music/Intro.m4a", status := "done",
    artistValid := true }

/-- The same track after `download_lyrics` recorded lyrics for it. -/
def demoLyricsTrack : Track :=
  { demoDoneTrack with hasLyrics := true,
                       lyricsLocal := some "/music/Intro.lrc" }

/-- C9 counterexample: re-importing an album over a track that has lyrics
(`has_lyrics = true`, `lyrics_local` non-null) resets `has_lyrics` to
false — `upsert_track` overwrites `has_lyrics` with its defaulted `False`
argument — while `lyrics_local` keeps its non-null value, so invariant I4
is broken after the commit. -/
theorem lyrics_invariant_counterexample :
    lyricsInvariant [demoLyricsTrack] ∧
    ¬ lyricsInvariant
        (import_album_tracks "AL1" amapNone [demoAlbumTrack]
          [demoLyricsTrack]) ∧
    (findTrack (import_album_tracks "AL1" amapNone [demoAlbumTrack]
        [demoLyricsTrack]) "v2").map Track.hasLyrics = some false ∧
    (findTrack (import_album_tracks "AL1" amapNone [demoAlbumTrack]
        [demoLyricsTrack]) "v2").map Track.lyricsLocal
      = some (some "/music/Intro.lrc") := by decide

lemma findTrack_map_eq {db : TrackDB} {tid : String} {t : Track}
    (g : Track → Track) (hg : ∀ k, (g k).id = k.id)
    (h : findTrack db tid = some t) :
    findTrack (db.map fun k => if k.id = tid then g k else k) tid
      = some (g t) := by
  induction db with
  | nil => cases h
  | cons a rest ih =>
      unfold findTrack at h ⊢
      by_cases ha : a.id = tid
      · rw [List.find?_cons_of_pos _ (by simpa using ha)] at h
        obtain rfl := Option.some.inj h
        rw [List.map_cons, if_pos ha]
        exact List.find?_cons_of_pos _ (by simpa [hg] using ha)
      · rw [List.find?_cons_of_neg _ (by simpa using ha)] at h
        rw [List.map_cons, if_neg ha,
            List.find?_cons_of_neg _ (by simpa using ha)]
        exact ih h

lemma findTrack_map_ne {db : TrackDB} {tid oid : String}
    (g : Track → Track) (hg : ∀ k, (g k).id = k.id) (hne : oid ≠ tid) :
    findTrack (db.map fun k => if k.id = oid then g k else k) tid
      = findTrack db tid := by
  induction db with
  | nil => rfl
  | cons a rest ih =>
      unfold findTrack at ih ⊢
      rw [List.map_cons]
      by_cases ha : a.id = oid
      · rw [if_pos ha]
        have e1 : List.find? (fun t : Track => t.id == tid)
            (g a :: rest.map (fun k => if k.id = oid then g k else k))
            = List.find? (fun t : Track => t.id == tid)
              (rest.map (fun k => if k.id = oid then g k else k)) := by
          refine List.find?_cons_of_neg _ ?_
          show ¬ (((g a).id == tid) = true)
          rw [hg, ha]
          simp [hne]
        have e2 : List.find? (fun t : Track => t.id == tid) (a :: rest)
            = List.find? (fun t : Track => t.id == tid) rest := by
          refine List.find?_cons_of_neg _ ?_
          show ¬ ((a.id == tid) = true)
          rw [ha]
          simp [hne]
        rw [e1, e2]
        exact ih
      · rw [if_neg ha]
        by_cases hat : a.id = tid
        · rw [List.find?_cons_of_pos _ (by simpa using hat),
              List.find?_cons_of_pos _ (by simpa using hat)]
        · rw [List.find?_cons_of_neg _ (by simpa using hat),
              List.find?_cons_of_neg _ (by simpa using hat)]
          exact ih

lemma findTrack_append_ne {db : TrackDB} {tid : String} (x : Track)
    (hx : x.id ≠ tid) :
    findTrack (db ++ [x]) tid = findTrack db tid := by
  unfold findTrack
  rw [List.find?_append]
  rw [List.find?_cons_of_neg _ (by simpa using hx)]
  cases db.find? (fun t => t.id == tid) <;> rfl

lemma findTrack_append_self {db : TrackDB} {tid : String} (x : Track)
    (hx : x.id = tid) (h : findTrack db tid = none) :
    findTrack (db ++ [x]) tid = some x := by
  unfold findTrack at h ⊢
  rw [List.find?_append, h, List.find?_cons_of_pos _ (by simpa using hx)]
  rfl

lemma upsert_track_find_ne {db : TrackDB} {trackId tid : String}
    (title : String) (tn dur : Option Int) (al : Option (List ArtistRef))
    (ai : Option String) (st : String) (fp : Option String) (av hl : Bool)
    (ll : Option String) (hne : trackId ≠ tid) :
    findTrack (upsert_track db trackId title tn dur al ai st fp av hl ll)
        tid = findTrack db tid := by
  unfold upsert_track
  cases hf : findTrack db trackId
  · exact findTrack_append_ne _ hne
  · exact findTrack_map_ne _ (fun k => rfl) hne

lemma upsert_track_find_eq {db : TrackDB} {trackId : String} {t : Track}
    (title : String) (tn dur : Option Int) (al : Option (List ArtistRef))
    (ai : Option String) (st : String) (fp : Option String) (av hl : Bool)
    (ll : Option String) (h : findTrack db trackId = some t) :
    findTrack (upsert_track db trackId title tn dur al ai st fp av hl ll)
        trackId = some (updTrack title tn dur al ai st fp av hl ll t) := by
  unfold upsert_track
  rw [h]
  exact findTrack_map_eq _ (fun k => rfl) h

/-- The entry at a position writes the row with this id in this run. -/
def stepTouches (amap : Nat → Option AudioInfo)
    (entry : Nat × AlbumTrackData) (tid : String) : Prop :=
  entry.2.videoId ≠ "" ∧ stepFinalId amap entry = tid

instance (amap : Nat → Option AudioInfo) (entry : Nat × AlbumTrackData)
    (tid : String) : Decidable (stepTouches amap entry tid) := by
  unfold stepTouches
  exact inferInstance

/-- The shape invariant of a row the import loop has written: a truthy
file comes with a non-empty status, a falsy file with status "new". -/
def goodRow (t : Track) : Prop :=
  (strTruthy t.filePath = true → t.status ≠ "") ∧
  (strTruthy t.filePath = false → t.status = "new")

/-- The value of the touched row (key `tid`) after one import step, as a
function of the pre-existing row. -/
def touchedRow (albumId tid : String) (entry : Nat × AlbumTrackData)
    (pre : Option Track) : Track :=
  match pre with
  | none =>
      newTrack tid (effTitle entry.2)
        (some (effTrackNumber entry.1 entry.2)) entry.2.duration
        (some entry.2.artists) (some albumId) "new" none true false none
  | some p =>
      updTrack (effTitle entry.2) (some (effTrackNumber entry.1 entry.2))
        entry.2.duration (some entry.2.artists) (some albumId)
        (preserveStatusFile (some p)).1 (preserveStatusFile (some p)).2
        true false none p

@[simp] lemma updTrack_status (title : String) (tn dur : Option Int)
    (al : Option (List ArtistRef)) (ai : Option String) (st : String)
    (fp : Option String) (av hl : Bool) (ll : Option String) (t : Track) :
    (updTrack title tn dur al ai st fp av hl ll t).status = st := rfl

@[simp] lemma updTrack_filePath (title : String) (tn dur : Option Int)
    (al : Option (List ArtistRef)) (ai : Option String) (st : String)
    (fp : Option String) (av hl : Bool) (ll : Option String) (t : Track) :
    (updTrack title tn dur al ai st fp av hl ll t).filePath
      = match fp with | some p => some p | none => t.filePath := rfl

@[simp] lemma updTrack_hasLyrics (title : String) (tn dur : Option Int)
    (al : Option (List ArtistRef)) (ai : Option String) (st : String)
    (fp : Option String) (av hl : Bool) (ll : Option String) (t : Track) :
    (updTrack title tn dur al ai st fp av hl ll t).hasLyrics = hl := rfl

@[simp] lemma updTrack_lyricsLocal (title : String) (tn dur : Option Int)
    (al : Option (List ArtistRef)) (ai : Option String) (st : String)
    (fp : Option String) (av hl : Bool) (ll : Option String) (t : Track) :
    (updTrack title tn dur al ai st fp av hl ll t).lyricsLocal
      = match ll with | some l => some l | none => t.lyricsLocal := rfl

@[simp] lemma newTrack_status (trackId title : String) (tn dur : Option Int)
    (al : Option (List ArtistRef)) (ai : Option String) (st : String)
    (fp : Option String) (av hl : Bool) (ll : Option String) :
    (newTrack trackId title tn dur al ai st fp av hl ll).status = st := rfl

@[simp] lemma newTrack_filePath (trackId title : String)
    (tn dur : Option Int) (al : Option (List ArtistRef)) (ai : Option String)
    (st : String) (fp : Option String) (av hl : Bool) (ll : Option String) :
    (newTrack trackId title tn dur al ai st fp av hl ll).filePath = fp := rfl

@[simp] lemma newTrack_hasLyrics (trackId title : String)
    (tn dur : Option Int) (al : Option (List ArtistRef)) (ai : Option String)
    (st : String) (fp : Option String) (av hl : Bool) (ll : Option String) :
    (newTrack trackId title tn dur al ai st fp av hl ll).hasLyrics
      = hl := rfl

lemma preserveStatusFile_truthy {p : Track}
    (ht : strTruthy p.filePath = true) :
    preserveStatusFile (some p)
      = (if p.status = "" then "done" else p.status, p.filePath) := by
  unfold preserveStatusFile
  dsimp only
  rw [if_pos ht]

lemma preserveStatusFile_falsy {p : Track}
    (ht : strTruthy p.filePath = false) :
    preserveStatusFile (some p) = ("new", none) := by
  unfold preserveStatusFile
  dsimp only
  rw [if_neg (by simp [ht])]

lemma touchedRow_some (albumId tid : String) (entry : Nat × AlbumTrackData)
    (p : Track) :
    touchedRow albumId tid entry (some p)
      = updTrack (effTitle entry.2) (some (effTrackNumber entry.1 entry.2))
          entry.2.duration (some entry.2.artists) (some albumId)
          (preserveStatusFile (some p)).1 (preserveStatusFile (some p)).2
          true false none p := rfl

lemma touchedRow_good (albumId tid : String) (entry : Nat × AlbumTrackData)
    (pre : Option Track) : goodRow (touchedRow albumId tid entry pre) := by
  cases pre with
  | none =>
      refine ⟨fun hc => ?_, fun _ => rfl⟩
      simp [touchedRow, strTruthy] at hc
  | some p =>
      by_cases ht : strTruthy p.filePath = true
      · rcases hfp : p.filePath with _ | q
        · rw [hfp] at ht
          simp [strTruthy] at ht
        · have hq : q ≠ "" := by
            rw [hfp] at ht
            simpa [strTruthy] using ht
          constructor
          · intro _
            rw [touchedRow_some, preserveStatusFile_truthy ht]
            simp only [updTrack_status]
            by_cases hs : p.status = "" <;> simp [hs]
          · intro hc
            rw [touchedRow_some, preserveStatusFile_truthy ht] at hc
            simp only [updTrack_filePath] at hc
            simp [hfp, strTruthy] at hc
            exact absurd hc hq
      · have ht' : strTruthy p.filePath = false := by simpa using ht
        constructor
        · intro hc
          rw [touchedRow_some, preserveStatusFile_falsy ht'] at hc
          simp only [updTrack_filePath] at hc
          exact absurd hc ht
        · intro _
          rw [touchedRow_some, preserveStatusFile_falsy ht']
          simp only [updTrack_status]

lemma touchedRow_preserves (albumId tid : String)
    (entry : Nat × AlbumTrackData) (p : Track) (hG : goodRow p) :
    (touchedRow albumId tid entry (some p)).status = p.status ∧
    (touchedRow albumId tid entry (some p)).filePath = p.filePath := by
  by_cases ht : strTruthy p.filePath = true
  · rcases hfp : p.filePath with _ | q
    · rw [hfp] at ht
      simp [strTruthy] at ht
    · constructor
      · rw [touchedRow_some, preserveStatusFile_truthy ht]
        simp only [updTrack_status]
        simp [hG.1 ht]
      · rw [touchedRow_some, preserveStatusFile_truthy ht]
        simp only [updTrack_filePath]
        simp [hfp]
  · have ht' : strTruthy p.filePath = false := by simpa using ht
    constructor
    · rw [touchedRow_some, preserveStatusFile_falsy ht']
      simp only [updTrack_status]
      exact (hG.2 ht').symm
    · rw [touchedRow_some, preserveStatusFile_falsy ht']
      simp only [updTrack_filePath]

lemma importStep_no_touch {amap : Nat → Option AudioInfo}
    {entry : Nat × AlbumTrackData} {tid : String} (albumId : String)
    (hnt : ¬ stepTouches amap entry tid) (db : TrackDB) :
    findTrack (importStep albumId amap db entry) tid = findTrack db tid := by
  unfold importStep
  by_cases hv : entry.2.videoId = ""
  · rw [if_pos hv]
  · rw [if_neg hv]
    exact upsert_track_find_ne _ _ _ _ _ _ _ _ _ _
      (fun he => hnt ⟨hv, he⟩)

lemma importStep_touch {amap : Nat → Option AudioInfo}
    {entry : Nat × AlbumTrackData} {tid : String} (albumId : String)
    (h : stepTouches amap entry tid) (db : TrackDB) :
    findTrack (importStep albumId amap db entry) tid
      = some (touchedRow albumId tid entry (findTrack db tid)) := by
  obtain ⟨hv, hid⟩ := h
  unfold importStep
  rw [if_neg hv, hid]
  cases hf : findTrack db tid with
  | none =>
      unfold upsert_track
      rw [hf]
      dsimp only
      exact findTrack_append_self _ rfl hf
  | some pre =>
      unfold upsert_track
      rw [hf]
      exact findTrack_map_eq _ (fun k => rfl) hf

lemma importTracksFrom_no_touch {amap : Nat → Option AudioInfo}
    {tid : String} (albumId : String)
    (entries : List (Nat × AlbumTrackData))
    (h : ∀ e ∈ entries, ¬ stepTouches amap e tid) (db : TrackDB) :
    findTrack (importTracksFrom albumId amap entries db) tid
      = findTrack db tid := by
  induction entries generalizing db with
  | nil => rfl
  | cons e rest ih =>
      have h1 : findTrack (importTracksFrom albumId amap rest
          (importStep albumId amap db e)) tid
          = findTrack (importStep albumId amap db e) tid :=
        ih (fun e' he' => h e' (List.mem_cons_of_mem _ he'))
          (importStep albumId amap db e)
      exact h1.trans (importStep_no_touch albumId (h e (List.mem_cons_self e rest)) db)

lemma importTracksFrom_preserves {amap : Nat → Option AudioInfo}
    {tid : String} (albumId : String)
    (entries : List (Nat × AlbumTrackData)) (db : TrackDB) (t : Track)
    (hf : findTrack db tid = some t) (hG : goodRow t) :
    ∃ t', findTrack (importTracksFrom albumId amap entries db) tid
        = some t' ∧ t'.status = t.status ∧ t'.filePath = t.filePath ∧
      goodRow t' := by
  induction entries generalizing db t with
  | nil => exact ⟨t, hf, rfl, rfl, hG⟩
  | cons e rest ih =>
      by_cases htouch : stepTouches amap e tid
      · have h1 := importStep_touch albumId htouch db
        rw [hf] at h1
        obtain ⟨hs, hfp⟩ := touchedRow_preserves albumId tid e t hG
        obtain ⟨t', h2, hs2, hf2, hG2⟩ :=
          ih (importStep albumId amap db e)
            (touchedRow albumId tid e (some t)) h1
            (touchedRow_good albumId tid e (some t))
        exact ⟨t', h2, hs2.trans hs, hf2.trans hfp, hG2⟩
      · have h1 : findTrack (importStep albumId amap db e) tid = some t :=
          (importStep_no_touch albumId htouch db).trans hf
        exact ih (importStep albumId amap db e) t h1 hG

lemma importTracksFrom_touched_good {amap : Nat → Option AudioInfo}
    {tid : String} (albumId : String)
    (entries : List (Nat × AlbumTrackData)) (db : TrackDB)
    (htouch : ∃ e ∈ entries, stepTouches amap e tid) :
    ∀ t, findTrack (importTracksFrom albumId amap entries db) tid = some t →
      goodRow t := by
  induction entries generalizing db with
  | nil =>
      obtain ⟨e, he, _⟩ := htouch
      cases he
  | cons e rest ih =>
      intro t ht
      by_cases hrest : ∃ e' ∈ rest, stepTouches amap e' tid
      · exact ih (importStep albumId amap db e) hrest t ht
      · have hte : stepTouches amap e tid := by
          obtain ⟨e', he', hs⟩ := htouch
          rcases List.mem_cons.mp he' with rfl | hmem
          · exact hs
          · exact absurd ⟨e', hmem, hs⟩ hrest
        have h1 := importStep_touch albumId hte db
        have h2 : findTrack (importTracksFrom albumId amap rest
            (importStep albumId amap db e)) tid
            = some (touchedRow albumId tid e (findTrack db tid)) := by
          rw [importTracksFrom_no_touch albumId rest
            (fun e' he' hs => hrest ⟨e', he', hs⟩) _, h1]
        have ht' : findTrack (importTracksFrom albumId amap rest
            (importStep albumId amap db e)) tid = some t := ht
        have heq : touchedRow albumId tid e (findTrack db tid) = t :=
          Option.some.inj (h2.symm.trans ht')
        rw [← heq]
        exact touchedRow_good albumId tid e (findTrack db tid)

/-- C7: running the track pass of `import_album` a second time (same
upstream data) preserves, for every track that had a non-null `file_path`
after the first run, both its `file_path` and its `status`. -/
theorem import_album_preserves_downloaded_tracks (albumId : String)
    (amap : Nat → Option AudioInfo) (tracks : List AlbumTrackData)
    (db : TrackDB) (tid : String) (t1 : Track)
    (h1 : findTrack (import_album_tracks albumId amap tracks db) tid
        = some t1)
    (_hfp : t1.filePath ≠ none) :
    ∃ t2, findTrack (import_album_tracks albumId amap tracks
          (import_album_tracks albumId amap tracks db)) tid = some t2 ∧
      t2.filePath = t1.filePath ∧ t2.status = t1.status := by
  by_cases htouch : ∃ e ∈ tracks.enum, stepTouches amap e tid
  · have hG : goodRow t1 :=
      importTracksFrom_touched_good albumId tracks.enum db htouch t1 h1
    obtain ⟨t2, h2, hs, hf, _⟩ :=
      importTracksFrom_preserves albumId tracks.enum
        (import_album_tracks albumId amap tracks db) t1 h1 hG
    exact ⟨t2, h2, hf, hs⟩
  · have h2 : findTrack (import_album_tracks albumId amap tracks
        (import_album_tracks albumId amap tracks db)) tid
        = findTrack (import_album_tracks albumId amap tracks db) tid :=
      importTracksFrom_no_touch albumId tracks.enum
        (fun e he hs => htouch ⟨e, he, hs⟩) _
    exact ⟨t1, h2.trans h1, rfl, rfl⟩

/-- Witness for C7: re-importing the demonstration album over a downloaded
track keeps its file and "done" status. -/
theorem import_album_preserves_downloaded_tracks_witness :
    ∃ t2, findTrack (import_album_tracks "AL1" amapNone [demoAlbumTrack]
          (import_album_tracks "AL1" amapNone [demoAlbumTrack]
            [demoDoneTrack])) "v2" = some t2 ∧
      t2.filePath = demoDoneTrack.filePath ∧
      t2.status = demoDoneTrack.status :=
  import_album_preserves_downloaded_tracks "AL1" amapNone [demoAlbumTrack]
    [demoDoneTrack] "v2" demoDoneTrack (by decide) (by decide)

lemma upsert_track_eq_create {db : TrackDB} {trackId : String}
    (title : String) (tn dur : Option Int) (al : Option (List ArtistRef))
    (ai : Option String) (st : String) (fp : Option String) (av hl : Bool)
    (ll : Option String) (h : findTrack db trackId = none) :
    upsert_track db trackId title tn dur al ai st fp av hl ll
      = db ++ [newTrack trackId title tn dur al ai st fp av hl ll] := by
  unfold upsert_track
  rw [h]

lemma upsert_track_eq_update {db : TrackDB} {trackId : String} {pre : Track}
    (title : String) (tn dur : Option Int) (al : Option (List ArtistRef))
    (ai : Option String) (st : String) (fp : Option String) (av hl : Bool)
    (ll : Option String) (h : findTrack db trackId = some pre) :
    upsert_track db trackId title tn dur al ai st fp av hl ll
      = db.map (fun t =>
          if t.id = trackId then updTrack title tn dur al ai st fp av hl ll t
          else t) := by
  unfold upsert_track
  rw [h]

lemma upsert_track_weakJ_false (db : TrackDB) (trackId title : String)
    (tn dur : Option Int) (al : Option (List ArtistRef)) (ai : Option String)
    (st : String) (fp : Option String) (av : Bool)
    (h : lyricsWeakInvariant db) :
    lyricsWeakInvariant
      (upsert_track db trackId title tn dur al ai st fp av false none) := by
  intro t' ht'
  cases hf : findTrack db trackId with
  | none =>
      rw [upsert_track_eq_create _ _ _ _ _ _ _ _ _ _ hf] at ht'
      rcases List.mem_append.mp ht' with hmem | hmem
      · exact h t' hmem
      · have heq : t' = newTrack trackId title tn dur al ai st fp av
            false none := by simpa using hmem
        intro hc
        rw [heq] at hc
        simp at hc
  | some pre =>
      rw [upsert_track_eq_update _ _ _ _ _ _ _ _ _ _ hf] at ht'
      obtain ⟨t0, ht0, heq⟩ := List.mem_map.mp ht'
      by_cases hid : t0.id = trackId
      · rw [if_pos hid] at heq
        intro hc
        rw [← heq] at hc
        simp at hc
      · rw [if_neg hid] at heq
        rw [← heq]
        exact h t0 ht0

lemma importStep_weakJ (albumId : String) (amap : Nat → Option AudioInfo)
    (entry : Nat × AlbumTrackData) (db : TrackDB)
    (h : lyricsWeakInvariant db) :
    lyricsWeakInvariant (importStep albumId amap db entry) := by
  unfold importStep
  by_cases hv : entry.2.videoId = ""
  · rw [if_pos hv]
    exact h
  · rw [if_neg hv]
    exact upsert_track_weakJ_false _ _ _ _ _ _ _ _ _ _ h

lemma importTracksFrom_weakJ (albumId : String)
    (amap : Nat → Option AudioInfo)
    (entries : List (Nat × AlbumTrackData)) (db : TrackDB)
    (h : lyricsWeakInvariant db) :
    lyricsWeakInvariant (importTracksFrom albumId amap entries db) := by
  induction entries generalizing db with
  | nil => exact h
  | cons e rest ih => exact ih _ (importStep_weakJ albumId amap e db h)

lemma download_lyrics_update_weakJ (db : TrackDB) (trackId lrcPath : String)
    (h : lyricsWeakInvariant db) :
    lyricsWeakInvariant (download_lyrics_update db trackId lrcPath) := by
  intro t' ht'
  obtain ⟨t0, ht0, heq⟩ := List.mem_map.mp ht'
  by_cases hid : t0.id = trackId
  · rw [if_pos hid] at heq
    rw [← heq]
    intro _
    simp
  · rw [if_neg hid] at heq
    rw [← heq]
    exact h t0 ht0

/-- C9 amended: only one direction of invariant I4 is maintained by the
code: if every track with `has_lyrics = true` has a non-null
`lyrics_local`, this stays true across the `import_album` track pass
(which only ever writes `has_lyrics = false`) and across the
`download_lyrics` update (which sets both fields together).  The converse
direction is broken by `import_album`'s re-upsert, which resets
`has_lyrics` to false while keeping `lyrics_local`. -/
theorem lyrics_flag_invariant_amended (albumId : String)
    (amap : Nat → Option AudioInfo) (tracks : List AlbumTrackData)
    (db : TrackDB) (trackId lrcPath : String)
    (h : lyricsWeakInvariant db) :
    lyricsWeakInvariant (import_album_tracks albumId amap tracks db) ∧
    lyricsWeakInvariant (download_lyrics_update db trackId lrcPath) :=
  ⟨importTracksFrom_weakJ albumId amap tracks.enum db h,
   download_lyrics_update_weakJ db trackId lrcPath h⟩

/-- Witness for the C9 amendment at the demonstration rows. -/
theorem lyrics_flag_invariant_amended_witness :
    lyricsWeakInvariant
      (import_album_tracks "AL1" amapNone [demoAlbumTrack]
        [demoLyricsTrack]) ∧
    lyricsWeakInvariant
      (download_lyrics_update [demoLyricsTrack] "v2" "/music/Intro.lrc") :=
  lyrics_flag_invariant_amended "AL1" amapNone [demoAlbumTrack]
    [demoLyricsTrack] "v2" "/music/Intro.lrc" (by decide)

/-! ## `sync_artist` (backend/jobs/tasks.py lines 657-869,
backend/services/artists.py `upsert_artist`,
backend/services/subscriptions.py `subscribe_to_album`,
`mark_artist_synced`, backend/services/albums.py
`list_albums_for_artist_from_db`).

The model covers the database pipeline of a successful run: artist upsert,
new-release computation, album-subscription creation, job enqueueing, and
the final `last_synced_at` write.  The artist-banner branch (a filesystem
check plus an image download) is outside the model; it touches only
`Artist.thumbnails`/`image_local`. -/

/-- An Artist row (backend/models.py); `thumbnails` is the raw JSON list
(kept opaque), stored as `thumbs or None`. -/
structure ArtistRow where
  id : String
  name : String
  thumbnails : Option (List String)
  imageLocal : Option String
  followed : Bool
  deriving Repr, DecidableEq

/-- An Album row reduced to its key and owning artist. -/
structure AlbumRow where
  id : String
  artistId : Option String
  deriving Repr, DecidableEq

/-- An ArtistSubscription row reduced to the fields `sync_artist`
writes. -/
structure ArtistSubRow where
  artistId : String
  lastSyncedAt : Option Int
  lastError : Option String
  deriving Repr, DecidableEq

/-- The Artist row created by `upsert_artist` (artists.py lines 43-52):
`name or ""`, `thumbnails = thumbs or None`. -/
def newArtistRow (artistId : String) (name : Option String)
    (thumbs : List String) : ArtistRow :=
  { id := artistId, name := name.getD "",
    thumbnails := if thumbs = [] then none else some thumbs,
    imageLocal := none, followed := false }

/-- The overwrite `upsert_artist` applies to an existing row (artists.py
lines 53-66): `name` when non-null, `thumbnails` when the list is
non-empty. -/
def updArtistRow (name : Option String) (thumbs : List String)
    (a : ArtistRow) : ArtistRow :=
  { a with
    name := match name with | some n => n | none => a.name,
    thumbnails := if thumbs = [] then a.thumbnails else some thumbs }

/-- `upsert_artist` (artists.py lines 26-68). -/
def upsert_artist (db : List ArtistRow) (artistId : String)
    (name : Option String) (thumbs : List String) : List ArtistRow :=
  match db.find? (fun a => a.id == artistId) with
  | none => db ++ [newArtistRow artistId name thumbs]
  | some _ =>
      db.map (fun a =>
        if a.id = artistId then updArtistRow name thumbs a else a)

/-- The AlbumSubscription row created by `subscribe_to_album`
(subscriptions.py lines 94-103): `download_status="pending"`. -/
def newAlbumSub (albumId artistId mode : String) (now : Int) : AlbumSub :=
  { albumId := albumId, artistId := artistId, mode := mode,
    downloadStatus := "pending", lastSyncedAt := none, createdAt := now }

/-- The overwrite `subscribe_to_album` applies to an existing row
(subscriptions.py lines 85-92): `mode` always, `artist_id` when truthy. -/
def updAlbumSub (artistId mode : String) (s : AlbumSub) : AlbumSub :=
  { s with mode := mode,
           artistId := if artistId = "" then s.artistId else artistId }

/-- `subscribe_to_album` (subscriptions.py lines 71-104). -/
def subscribe_to_album (subs : List AlbumSub) (albumId artistId : String)
    (mode : String) (now : Int) : List AlbumSub :=
  match subs.find? (fun s => s.albumId == albumId) with
  | none => subs ++ [newAlbumSub albumId artistId mode now]
  | some _ =>
      subs.map (fun s =>
        if s.albumId = albumId then updAlbumSub artistId mode s else s)

/-- The overwrite `mark_artist_synced` applies (subscriptions.py lines
200-207): `last_synced_at = now`, `last_error` truthy-normalized. -/
def updArtistSub (error : Option String) (now : Int) (s : ArtistSubRow) :
    ArtistSubRow :=
  { s with lastSyncedAt := some now, lastError := normErr error }

/-- `mark_artist_synced` (subscriptions.py lines 194-207): a no-op without
a subscription row. -/
def mark_artist_synced (subs : List ArtistSubRow) (artistId : String)
    (error : Option String) (now : Int) : List ArtistSubRow :=
  match subs.find? (fun s => s.artistId == artistId) with
  | none => subs
  | some _ =>
      subs.map (fun s =>
        if s.artistId = artistId then updArtistSub error now s else s)

/-- The fixed upstream catalog response `get_artist` returns for the
artist: profile fields plus the ids of `albums + singles` (an id may be
the empty string when the entry has neither `id` nor `browseId`). -/
structure SyncUpstream where
  name : Option String
  thumbnails : List String
  releases : List String
  deriving Repr, DecidableEq

/-- The catalog rows `sync_artist` can read or write. -/
@[ext] structure CatalogState where
  artists : List ArtistRow
  albums : List AlbumRow
  tracks : TrackDB
  artistSubs : List ArtistSubRow
  albumSubs : List AlbumSub
  deriving Repr, DecidableEq

/-- New releases (tasks.py lines 759-765): upstream ids not already in the
Album table FOR THIS ARTIST (`list_albums_for_artist_from_db` filters on
`Album.artist_id == artist_id`). -/
def newReleases (releases : List String) (artistId : String)
    (albums : List AlbumRow) : List String :=
  releases.filter (fun r =>
    !(albums.any (fun a => a.id == r && a.artistId == some artistId)))

/-- One iteration of the subscription loop (tasks.py lines 792-806): skip
a falsy id, else subscribe with `mode="download"`.  The job loop (lines
819-838) enqueues for exactly the non-skipped ids. -/
def subStep (artistId : String) (now : Int) (subs : List AlbumSub)
    (r : String) : List AlbumSub :=
  if r = "" then subs else subscribe_to_album subs r artistId "download" now

/-- The album-subscription fold of one `sync_artist` run. -/
def subFold (artistId : String) (now : Int) (rs : List String)
    (subs : List AlbumSub) : List AlbumSub :=
  rs.foldl (subStep artistId now) subs

/-- `sync_artist` (tasks.py lines 657-869) on its success path: upsert the
artist, compute new releases against the Album table, create album
subscriptions and enqueue one `import_album` job per non-empty new release
id, and stamp `last_synced_at`.  Returns the updated state and the list of
enqueued `import_album` browse ids.  `sync_artist` itself never writes
Album or Track rows. -/
def sync_artist (upstream : SyncUpstream) (artistId : String) (now : Int)
    (st : CatalogState) : CatalogState × List String :=
  if newReleases upstream.releases artistId st.albums = [] then
    ({ st with
       artists := upsert_artist st.artists artistId upstream.name
         upstream.thumbnails,
       artistSubs := mark_artist_synced st.artistSubs artistId none now },
     [])
  else
    ({ st with
       artists := upsert_artist st.artists artistId upstream.name
         upstream.thumbnails,
       albumSubs := subFold artistId now
         (newReleases upstream.releases artistId st.albums) st.albumSubs,
       artistSubs := mark_artist_synced st.artistSubs artistId none now },
     (newReleases upstream.releases artistId st.albums).filter
       (fun r => r ≠ ""))

/-- A fixed upstream response with one release. -/
def demoUpstream : SyncUpstream :=
  { name := some "Artist", thumbnails := ["t1"], releases := ["AL1"] }

/-- The empty catalog. -/
def emptyState : CatalogState :=
  { artists := [], albums := [], tracks := [], artistSubs := [],
    albumSubs := [] }

/-- C8 counterexample: on an empty catalog, the first `sync_artist` run
enqueues one `import_album` job for the release AL1 — and so does the
second run, because `sync_artist` never inserts Album rows itself (they
are only created later, when the queued `import_album` jobs execute), so
AL1 is still missing from the Album table.  The claim's "zero jobs on the
second run" is false. -/
theorem sync_artist_second_run_counterexample :
    (sync_artist demoUpstream "AR1" 100 emptyState).2 = ["AL1"] ∧
    (sync_artist demoUpstream "AR1" 100
        (sync_artist demoUpstream "AR1" 100 emptyState).1).2 = ["AL1"] ∧
    (sync_artist demoUpstream "AR1" 100
        (sync_artist demoUpstream "AR1" 100 emptyState).1).1.albums = [] ∧
    (["AL1"] : List String) ≠ [] := by decide

lemma keyFind_map_eq {α : Type} (key : α → String) {db : List α}
    {k : String} {t : α} (g : α → α) (hg : ∀ x, key (g x) = key x)
    (h : db.find? (fun a => key a == k) = some t) :
    (db.map fun x => if key x = k then g x else x).find?
      (fun a => key a == k) = some (g t) := by
  induction db with
  | nil => cases h
  | cons a rest ih =>
      by_cases ha : key a = k
      · rw [List.find?_cons_of_pos _ (by simpa using ha)] at h
        obtain rfl := Option.some.inj h
        rw [List.map_cons, if_pos ha]
        exact List.find?_cons_of_pos _ (by simpa [hg] using ha)
      · rw [List.find?_cons_of_neg _ (by simpa using ha)] at h
        rw [List.map_cons, if_neg ha,
            List.find?_cons_of_neg _ (by simpa using ha)]
        exact ih h

lemma keyFind_append_self {α : Type} (key : α → String) {db : List α}
    {k : String} (x : α) (hx : key x = k)
    (h : db.find? (fun a => key a == k) = none) :
    (db ++ [x]).find? (fun a => key a == k) = some x := by
  rw [List.find?_append, h, List.find?_cons_of_pos _ (by simpa using hx)]
  rfl

lemma map_update_idem {α : Type} (p : α → Prop) [DecidablePred p]
    (g : α → α) (hp : ∀ x, p x → p (g x)) (hg : ∀ x, p x → g (g x) = g x)
    (l : List α) :
    ((l.map fun x => if p x then g x else x).map
        fun x => if p x then g x else x)
      = l.map fun x => if p x then g x else x := by
  rw [List.map_map]
  refine List.map_congr_left ?_
  intro x _
  simp only [Function.comp_apply]
  by_cases hx : p x
  · rw [if_pos hx, if_pos (hp x hx), hg x hx]
  · rw [if_neg hx, if_neg hx]

lemma map_cond_id {α : Type} (p : α → Prop) [DecidablePred p] (g : α → α)
    (l : List α) (h : ∀ x ∈ l, p x → g x = x) :
    (l.map fun x => if p x then g x else x) = l := by
  have h2 : ∀ x ∈ l, (fun x => if p x then g x else x) x = id x := by
    intro x hx
    by_cases hp : p x
    · simp [hp, h x hx hp]
    · simp [hp]
  rw [List.map_congr_left h2, List.map_id]

lemma updArtistRow_idem (name : Option String) (thumbs : List String)
    (a : ArtistRow) :
    updArtistRow name thumbs (updArtistRow name thumbs a)
      = updArtistRow name thumbs a := by
  unfold updArtistRow
  cases name <;> by_cases hth : thumbs = [] <;> simp [hth]

lemma updArtistRow_newArtistRow (artistId : String) (name : Option String)
    (thumbs : List String) :
    updArtistRow name thumbs (newArtistRow artistId name thumbs)
      = newArtistRow artistId name thumbs := by
  unfold updArtistRow newArtistRow
  cases name <;> by_cases hth : thumbs = [] <;> simp [hth, Option.getD]

lemma upsert_artist_idem (db : List ArtistRow) (artistId : String)
    (name : Option String) (thumbs : List String) :
    upsert_artist (upsert_artist db artistId name thumbs) artistId name
        thumbs
      = upsert_artist db artistId name thumbs := by
  cases hf : db.find? (fun a => a.id == artistId) with
  | none =>
      have hdb1 : upsert_artist db artistId name thumbs
          = db ++ [newArtistRow artistId name thumbs] := by
        unfold upsert_artist
        rw [hf]
      have hfind : (db ++ [newArtistRow artistId name thumbs]).find?
          (fun a => a.id == artistId)
          = some (newArtistRow artistId name thumbs) :=
        keyFind_append_self (fun a : ArtistRow => a.id) _ rfl hf
      rw [hdb1]
      unfold upsert_artist
      rw [hfind]
      refine map_cond_id _ _ _ ?_
      intro a ha hid
      rcases List.mem_append.mp ha with hmem | hmem
      · exact absurd (by simpa using hid)
          (List.find?_eq_none.mp hf a hmem)
      · have hae : a = newArtistRow artistId name thumbs := by
          simpa using hmem
        subst hae
        exact updArtistRow_newArtistRow artistId name thumbs
  | some a0 =>
      have hdb1 : upsert_artist db artistId name thumbs
          = db.map (fun a =>
              if a.id = artistId then updArtistRow name thumbs a else a) := by
        unfold upsert_artist
        rw [hf]
      have hfind : (db.map (fun a =>
          if a.id = artistId then updArtistRow name thumbs a else a)).find?
          (fun a => a.id == artistId)
          = some (updArtistRow name thumbs a0) :=
        keyFind_map_eq (fun a : ArtistRow => a.id) _ (fun x => rfl) hf
      rw [hdb1]
      unfold upsert_artist
      rw [hfind]
      exact map_update_idem (fun a : ArtistRow => a.id = artistId)
        (updArtistRow name thumbs) (fun x hx => hx)
        (fun x _ => updArtistRow_idem name thumbs x) db

lemma mark_artist_synced_idem (subs : List ArtistSubRow)
    (artistId : String) (error : Option String) (now : Int) :
    mark_artist_synced (mark_artist_synced subs artistId error now)
        artistId error now
      = mark_artist_synced subs artistId error now := by
  cases hf : subs.find? (fun s => s.artistId == artistId) with
  | none =>
      have h1 : mark_artist_synced subs artistId error now = subs := by
        unfold mark_artist_synced
        rw [hf]
      rw [h1, h1]
  | some s0 =>
      have h1 : mark_artist_synced subs artistId error now
          = subs.map (fun s =>
              if s.artistId = artistId then updArtistSub error now s
              else s) := by
        unfold mark_artist_synced
        rw [hf]
      have hfind : (subs.map (fun s =>
          if s.artistId = artistId then updArtistSub error now s
          else s)).find? (fun s => s.artistId == artistId)
          = some (updArtistSub error now s0) :=
        keyFind_map_eq (fun s : ArtistSubRow => s.artistId) _
          (fun x => rfl) hf
      rw [h1]
      unfold mark_artist_synced
      rw [hfind]
      exact map_update_idem (fun s : ArtistSubRow => s.artistId = artistId)
        (updArtistSub error now) (fun x hx => hx) (fun x _ => rfl) subs

lemma subscribe_eq_create {subs : List AlbumSub} {albumId : String}
    (artistId mode : String) (now : Int)
    (h : subs.find? (fun s => s.albumId == albumId) = none) :
    subscribe_to_album subs albumId artistId mode now
      = subs ++ [newAlbumSub albumId artistId mode now] := by
  unfold subscribe_to_album
  rw [h]

lemma subscribe_eq_update {subs : List AlbumSub} {albumId : String}
    {pre : AlbumSub} (artistId mode : String) (now : Int)
    (h : subs.find? (fun s => s.albumId == albumId) = some pre) :
    subscribe_to_album subs albumId artistId mode now
      = subs.map (fun s =>
          if s.albumId = albumId then updAlbumSub artistId mode s else s) := by
  unfold subscribe_to_album
  rw [h]

/-- The rows a processed release leaves behind: a subscription exists for
the release and every subscription row of the release already carries
`mode="download"` and (when the artist id is truthy) the artist id. -/
def GoodSub (artistId r : String) (subs : List AlbumSub) : Prop :=
  (∃ s ∈ subs, s.albumId = r) ∧
  ∀ s ∈ subs, s.albumId = r →
    s.mode = "download" ∧ (artistId ≠ "" → s.artistId = artistId)

lemma updAlbumSub_fix {artistId : String} {s : AlbumSub}
    (hm : s.mode = "download")
    (ha : artistId ≠ "" → s.artistId = artistId) :
    updAlbumSub artistId "download" s = s := by
  unfold updAlbumSub
  by_cases hne : artistId = ""
  · rw [if_pos hne, ← hm]
  · rw [if_neg hne, ← hm, ← ha hne]

lemma subStep_preserves_good {artistId r' : String} (now : Int)
    {subs : List AlbumSub} (r : String) (hG : GoodSub artistId r' subs) :
    GoodSub artistId r' (subStep artistId now subs r) := by
  unfold subStep
  by_cases hr : r = ""
  · rw [if_pos hr]
    exact hG
  · rw [if_neg hr]
    cases hf : subs.find? (fun s => s.albumId == r) with
    | none =>
        rw [subscribe_eq_create _ _ _ hf]
        constructor
        · obtain ⟨s, hs, hsr⟩ := hG.1
          exact ⟨s, List.mem_append_left _ hs, hsr⟩
        · intro s hs hsr
          rcases List.mem_append.mp hs with h | h
          · exact hG.2 s h hsr
          · have he : s = newAlbumSub r artistId "download" now := by
              simpa using h
            subst he
            exact ⟨rfl, fun _ => rfl⟩
    | some s0 =>
        rw [subscribe_eq_update _ _ _ hf]
        constructor
        · obtain ⟨s, hs, hsr⟩ := hG.1
          refine ⟨(if s.albumId = r then updAlbumSub artistId "download" s
              else s), List.mem_map.mpr ⟨s, hs, rfl⟩, ?_⟩
          by_cases h2 : s.albumId = r
          · rw [if_pos h2]
            simpa [updAlbumSub] using hsr
          · rw [if_neg h2]
            exact hsr
        · intro s hs hsr
          obtain ⟨t0, ht0, heq⟩ := List.mem_map.mp hs
          by_cases h0 : t0.albumId = r
          · rw [if_pos h0] at heq
            rw [← heq]
            exact ⟨rfl, fun hne => by simp [updAlbumSub, hne]⟩
          · rw [if_neg h0] at heq
            rw [← heq]
            exact hG.2 t0 ht0 (by rw [heq]; exact hsr)

lemma subStep_establishes {artistId : String} (now : Int)
    (subs : List AlbumSub) (r : String) (hr : r ≠ "") :
    GoodSub artistId r (subStep artistId now subs r) := by
  unfold subStep
  rw [if_neg hr]
  cases hf : subs.find? (fun s => s.albumId == r) with
  | none =>
      rw [subscribe_eq_create _ _ _ hf]
      constructor
      · exact ⟨newAlbumSub r artistId "download" now,
          List.mem_append_right _ (by simp), rfl⟩
      · intro s hs hsr
        rcases List.mem_append.mp hs with h | h
        · exact absurd (by simpa using hsr) (List.find?_eq_none.mp hf s h)
        · have he : s = newAlbumSub r artistId "download" now := by
            simpa using h
          subst he
          exact ⟨rfl, fun _ => rfl⟩
  | some s0 =>
      rw [subscribe_eq_update _ _ _ hf]
      constructor
      · have hs0 : s0 ∈ subs := List.mem_of_find?_eq_some hf
        have hs0r : s0.albumId = r := by
          have := List.find?_some hf
          simpa using this
        refine ⟨updAlbumSub artistId "download" s0,
          List.mem_map.mpr ⟨s0, hs0, by rw [if_pos hs0r]⟩, ?_⟩
        simpa [updAlbumSub] using hs0r
      · intro s hs hsr
        obtain ⟨t0, ht0, heq⟩ := List.mem_map.mp hs
        by_cases h0 : t0.albumId = r
        · rw [if_pos h0] at heq
          rw [← heq]
          exact ⟨rfl, fun hne => by simp [updAlbumSub, hne]⟩
        · rw [if_neg h0] at heq
          exact absurd (by rw [heq]; exact hsr) h0

lemma subStep_identity {artistId r : String} (now : Int)
    {subs : List AlbumSub} (h : r = "" ∨ GoodSub artistId r subs) :
    subStep artistId now subs r = subs := by
  unfold subStep
  by_cases hr : r = ""
  · rw [if_pos hr]
  · rw [if_neg hr]
    obtain hG := h.resolve_left hr
    obtain ⟨s, hs, hsr⟩ := hG.1
    cases hf : subs.find? (fun x => x.albumId == r) with
    | none =>
        exact absurd (by simpa using hsr) (List.find?_eq_none.mp hf s hs)
    | some s0 =>
        rw [subscribe_eq_update _ _ _ hf]
        refine map_cond_id _ _ _ ?_
        intro x hx h0
        obtain ⟨hm, ha⟩ := hG.2 x hx h0
        exact updAlbumSub_fix hm ha

lemma subFold_preserves_good {artistId r' : String} (now : Int)
    (rs : List String) :
    ∀ subs : List AlbumSub, GoodSub artistId r' subs →
      GoodSub artistId r' (subFold artistId now rs subs) := by
  induction rs with
  | nil => exact fun subs hG => hG
  | cons x rest ih =>
      exact fun subs hG => ih _ (subStep_preserves_good now x hG)

lemma subFold_establishes (now : Int) (artistId : String) :
    ∀ (rs : List String) (subs : List AlbumSub) (r : String),
      r ∈ rs → r ≠ "" → GoodSub artistId r (subFold artistId now rs subs)
  | [], _, r, hrs, _ => absurd hrs (List.not_mem_nil r)
  | x :: rest, subs, r, hrs, hr => by
      rcases List.mem_cons.mp hrs with rfl | hmem
      · exact subFold_preserves_good now rest _
          (subStep_establishes now subs r hr)
      · exact subFold_establishes now artistId rest _ r hmem hr

lemma subFold_of_all_good (now : Int) (artistId : String) :
    ∀ (rs : List String) (subs : List AlbumSub),
      (∀ r ∈ rs, r ≠ "" → GoodSub artistId r subs) →
      subFold artistId now rs subs = subs
  | [], _, _ => rfl
  | x :: rest, subs, h => by
      have hx : subStep artistId now subs x = subs := by
        by_cases hxe : x = ""
        · exact subStep_identity now (Or.inl hxe)
        · exact subStep_identity now
            (Or.inr (h x (List.mem_cons_self x rest) hxe))
      show subFold artistId now rest (subStep artistId now subs x) = subs
      rw [hx]
      exact subFold_of_all_good now artistId rest subs
        (fun r hr hne => h r (List.mem_cons_of_mem _ hr) hne)

lemma subFold_idem (artistId : String) (now : Int) (rs : List String)
    (subs : List AlbumSub) :
    subFold artistId now rs (subFold artistId now rs subs)
      = subFold artistId now rs subs :=
  subFold_of_all_good now artistId rs _
    (fun r hr hne => subFold_establishes now artistId rs subs r hr hne)

lemma sync_artist_albums_eq (u : SyncUpstream) (a : String) (n : Int)
    (st : CatalogState) : (sync_artist u a n st).1.albums = st.albums := by
  unfold sync_artist
  by_cases hN : newReleases u.releases a st.albums = []
  · rw [if_pos hN]
  · rw [if_neg hN]

lemma sync_artist_tracks_eq (u : SyncUpstream) (a : String) (n : Int)
    (st : CatalogState) : (sync_artist u a n st).1.tracks = st.tracks := by
  unfold sync_artist
  by_cases hN : newReleases u.releases a st.albums = []
  · rw [if_pos hN]
  · rw [if_neg hN]

lemma sync_artist_artists_eq (u : SyncUpstream) (a : String) (n : Int)
    (st : CatalogState) :
    (sync_artist u a n st).1.artists
      = upsert_artist st.artists a u.name u.thumbnails := by
  unfold sync_artist
  by_cases hN : newReleases u.releases a st.albums = []
  · rw [if_pos hN]
  · rw [if_neg hN]

lemma sync_artist_artistSubs_eq (u : SyncUpstream) (a : String) (n : Int)
    (st : CatalogState) :
    (sync_artist u a n st).1.artistSubs
      = mark_artist_synced st.artistSubs a none n := by
  unfold sync_artist
  by_cases hN : newReleases u.releases a st.albums = []
  · rw [if_pos hN]
  · rw [if_neg hN]

lemma sync_artist_albumSubs_eq (u : SyncUpstream) (a : String) (n : Int)
    (st : CatalogState) :
    (sync_artist u a n st).1.albumSubs
      = if newReleases u.releases a st.albums = [] then st.albumSubs
        else subFold a n (newReleases u.releases a st.albums)
          st.albumSubs := by
  unfold sync_artist
  by_cases hN : newReleases u.releases a st.albums = []
  · rw [if_pos hN, if_pos hN]
  · rw [if_neg hN, if_neg hN]

lemma sync_artist_jobs_eq (u : SyncUpstream) (a : String) (n : Int)
    (st : CatalogState) :
    (sync_artist u a n st).2
      = if newReleases u.releases a st.albums = [] then []
        else (newReleases u.releases a st.albums).filter
          (fun r => r ≠ "") := by
  unfold sync_artist
  by_cases hN : newReleases u.releases a st.albums = []
  · rw [if_pos hN, if_pos hN]
  · rw [if_neg hN, if_neg hN]

/-- C8 amended: with a fixed upstream response and the same clock, the
second `sync_artist` run reproduces the same Artist, Album, Track and
Subscription rows as the first — but it does NOT enqueue zero
`import_album` jobs: because `sync_artist` never inserts Album rows (they
are created later by the `import_album` jobs themselves), the second run
enqueues exactly the same job list again — one job per new release with a
truthy id — which is empty only when the first run's was. -/
theorem sync_artist_second_run_spec (upstream : SyncUpstream)
    (artistId : String) (now : Int) (st : CatalogState) :
    (sync_artist upstream artistId now
        (sync_artist upstream artistId now st).1).1
      = (sync_artist upstream artistId now st).1 ∧
    (sync_artist upstream artistId now
        (sync_artist upstream artistId now st).1).2
      = (sync_artist upstream artistId now st).2 ∧
    (sync_artist upstream artistId now st).2
      = if newReleases upstream.releases artistId st.albums = [] then []
        else (newReleases upstream.releases artistId st.albums).filter
          (fun r => r ≠ "") := by
  refine ⟨?_, ?_, sync_artist_jobs_eq upstream artistId now st⟩
  · ext1
    · simp only [sync_artist_artists_eq, upsert_artist_idem]
    · simp only [sync_artist_albums_eq]
    · simp only [sync_artist_tracks_eq]
    · simp only [sync_artist_artistSubs_eq, mark_artist_synced_idem]
    · simp only [sync_artist_albumSubs_eq, sync_artist_albums_eq]
      by_cases hN : newReleases upstream.releases artistId st.albums = []
      · simp [hN]
      · simp [hN, subFold_idem]
  · simp only [sync_artist_jobs_eq, sync_artist_albums_eq]

end YTMD
